import Mathlib

/-!
Shallow embedding of `microwave.py`, a microwave-oven controller modelled as an
explicit finite-state machine with three states (IDLE, COOKING, Pause), a state
registry keyed by state-name strings, a shared context (`cook_time`, `stop_time`,
`event`), and an enter/update/exit transition protocol driven by `go_to_state`.

Modelling conventions:
- `time.monotonic()` is modelled by a rational parameter `now` supplied to each
  update/transition call; all monotonic reads inside one driver tick observe the
  same instant (the claims tolerate clock resolution).
- Console output (`print`/`log`) is modelled by an output sink `output : List Out`
  appended in program order; each `Out` constructor corresponds to one print/log
  site in the source.
- Python exceptions (`KeyError` from the registry dict lookup, `AttributeError`
  from reading the not-yet-assigned `stop_time` attribute) are modelled by an
  `Option PyErr` component of the result; mutations performed before the raise
  persist in the returned machine, exactly as Python object mutation does.
- `time.sleep(0.2)` in the cooking heartbeat has no effect on the modelled state.
-/

/-- System constant `TESTING = True` (line 19): tracing/log output is enabled. -/
def TESTING : Bool := true

/-- Event definition `EVENT_START = 'S'` (line 22). -/
def EVENT_START : String := "S"

/-- Event definition `EVENT_PAUSE = 'P'` (line 23). -/
def EVENT_PAUSE : String := "P"

/-- The three concrete state classes instantiated by the main program:
`IdleState`, `CookingState`, `PauseState`. -/
inductive St
  | idle
  | cooking
  | pause
deriving DecidableEq, Repr

/-- One entry of the console output sink. Each constructor corresponds to one
`print`/`log` site of the source, with its payload. -/
inductive Out
  | exiting (n : String)
  | entering (n : String)
  | cookTimeEcho (q : ℚ)
  | startHeating
  | stopHeating
  | pausedMsg
  | cancelMsg
  | dot
deriving DecidableEq, Repr

/-- Python exceptions reachable in the embedded fragment. -/
inductive PyErr
  | keyError (k : String)
  | attributeError (a : String)
deriving DecidableEq, Repr

/-- The `MicrowaveMachine` object: current state (`None` before the first
transition), registry dict of states keyed by name, last polled event string
(`""` means no event), `cook_time`, the dynamically created `stop_time`
attribute (absent until `CookingState.enter` first assigns it), and the
modelled console output. -/
structure MicrowaveMachine where
  state : Option St
  states : List (String × St)
  event : String
  cook_time : ℚ
  stop_time : Option ℚ
  output : List Out
deriving DecidableEq, Repr

/-- `MicrowaveMachine.__init__` (lines 48-52). -/
def MicrowaveMachine.init : MicrowaveMachine :=
  { state := none, states := [], event := "", cook_time := 0,
    stop_time := none, output := [] }

/-- Append one line to the console output (a `print` call). -/
def emit (o : Out) (m : MicrowaveMachine) : MicrowaveMachine :=
  { m with output := m.output ++ [o] }

/-- The `log` helper (lines 27-30): print only when `TESTING` is enabled. -/
def logOut (o : Out) (m : MicrowaveMachine) : MicrowaveMachine :=
  if TESTING then emit o m else m

/-- The `name` property of each concrete state class. -/
def St.name : St → String
  | .idle => "IDLE"
  | .cooking => "COOKING"
  | .pause => "Pause"

/-- The `enter` hooks: `IdleState.enter` resets `cook_time` to 0 (line 103);
`PauseState.enter` prints "Paused" (line 126); `CookingState.enter` prints
"Start heating" then assigns `stop_time = time.monotonic() + cook_time`
(lines 148-150). -/
def St.enter (s : St) (now : ℚ) (m : MicrowaveMachine) : MicrowaveMachine :=
  match s with
  | .idle => { m with cook_time := 0 }
  | .pause => emit .pausedMsg m
  | .cooking => { emit .startHeating m with stop_time := some (now + m.cook_time) }

/-- The `exit` hooks: `CookingState.exit` prints "Stop heating" (line 153);
`IdleState.exit` and `PauseState.exit` delegate to the no-op `State.exit`. -/
def St.exit (s : St) (m : MicrowaveMachine) : MicrowaveMachine :=
  match s with
  | .idle => m
  | .pause => m
  | .cooking => emit .stopHeating m

/-- Python's dict subscript read: first (unique) binding of the key. -/
def dictGet (d : List (String × St)) (k : String) : Option St :=
  List.lookup k d

/-- Python's dict subscript assignment: overwrite the binding if the key is
present, else append a new one. -/
def dictInsert (d : List (String × St)) (k : String) (v : St) : List (String × St) :=
  if d.any (fun p => p.1 == k) then
    d.map (fun p => if p.1 == k then (k, v) else p)
  else
    d ++ [(k, v)]

/-- `MicrowaveMachine.add_state` (lines 54-55). -/
def MicrowaveMachine.add_state (m : MicrowaveMachine) (s : St) : MicrowaveMachine :=
  { m with states := dictInsert m.states s.name s }

/-- `MicrowaveMachine.go_to_state` (lines 57-63): if a current state exists, log
"Exiting" and run its `exit` hook; then look the target name up in the registry
(a missing key raises `KeyError` at this point, with the exit side effects
already performed); on success assign the new current state, log "Entering" and
run its `enter` hook. -/
def MicrowaveMachine.go_to_state (m : MicrowaveMachine) (state_name : String) (now : ℚ) :
    MicrowaveMachine × Option PyErr :=
  let m1 :=
    match m.state with
    | some s => s.exit (logOut (.exiting s.name) m)
    | none => m
  match dictGet m1.states state_name with
  | none => (m1, some (.keyError state_name))
  | some s =>
      let m2 := { m1 with state := some s }
      (s.enter now (logOut (.entering s.name) m2), none)

/-- Python's substring test `needle in hay` on strings. -/
def strContains (hay needle : String) : Bool :=
  (List.range (hay.length + 1)).any (fun i =>
    (hay.toList.drop i).take needle.length == needle.toList)

/-- Python's `int(s)` on the strings reachable under the digit guard
(non-empty numeric substrings of "0123456789"): decimal value of the digit
characters, as a rational. -/
def pyInt (s : String) : ℚ :=
  ((s.toList.foldl (fun n c => n * 10 + (c.toNat - Char.toNat '0')) 0 : ℕ) : ℚ)

/-- The `update` hooks of the three concrete states.
`IdleState.update` (lines 109-115): on the start symbol transition to COOKING;
else on a digit event accumulate `cook_time = cook_time * 10 + int(event)` and
print it; else do nothing.
`PauseState.update` (lines 128-132): on the start symbol transition to COOKING;
on "Q" transition to IDLE; else do nothing.
`CookingState.update` (lines 156-167): if `stop_time <= now` transition to IDLE;
else on "Q" print "Cancel" and transition to IDLE; else on the pause symbol set
`cook_time = stop_time - now` and transition to Pause; else print the heartbeat
dot (and sleep, which the model drops). Reading `stop_time` before
`CookingState.enter` ever assigned it raises `AttributeError`. -/
def St.update (s : St) (now : ℚ) (m : MicrowaveMachine) :
    MicrowaveMachine × Option PyErr :=
  match s with
  | .idle =>
      if m.event == EVENT_START then
        m.go_to_state "COOKING" now
      else if m.event != "" && strContains "0123456789" m.event then
        let ct := m.cook_time * 10 + pyInt m.event
        (emit (.cookTimeEcho ct) { m with cook_time := ct }, none)
      else
        (m, none)
  | .pause =>
      if m.event == EVENT_START then
        m.go_to_state "COOKING" now
      else if m.event == "Q" then
        m.go_to_state "IDLE" now
      else
        (m, none)
  | .cooking =>
      match m.stop_time with
      | none => (m, some (.attributeError "stop_time"))
      | some st =>
          if st ≤ now then
            m.go_to_state "IDLE" now
          else if m.event == "Q" then
            (emit .cancelMsg m).go_to_state "IDLE" now
          else if m.event == EVENT_PAUSE then
            ({ m with cook_time := st - now } : MicrowaveMachine).go_to_state "Pause" now
          else
            (emit .dot m, none)

/-- `MicrowaveMachine.update` (lines 65-68): no-op when no current state is set,
else delegate to the current state's `update`. -/
def MicrowaveMachine.update (m : MicrowaveMachine) (now : ℚ) :
    MicrowaveMachine × Option PyErr :=
  match m.state with
  | none => (m, none)
  | some s => s.update now m

/-- The registry built by the main program (lines 178-180): IDLE, COOKING,
Pause, in insertion order. -/
def stdStates : List (String × St) :=
  [("IDLE", St.idle), ("COOKING", St.cooking), ("Pause", St.pause)]

/-- The driver loop (lines 187-190) restricted to a finite script of events:
assign each event to the machine and call `update`, at the given instant;
an uncaught exception stops the loop. -/
def runEvents (m : MicrowaveMachine) (evs : List String) (now : ℚ) :
    MicrowaveMachine × Option PyErr :=
  match evs with
  | [] => (m, none)
  | e :: rest =>
      let r := MicrowaveMachine.update { m with event := e } now
      match r.2 with
      | some err => (r.1, some err)
      | none => runEvents r.1 rest now

/-- A machine wired with the standard registry, for concrete instantiations. -/
def mkM (s : Option St) (ct : ℚ) (stp : Option ℚ) (ev : String) : MicrowaveMachine :=
  { state := s, states := stdStates, event := ev, cook_time := ct,
    stop_time := stp, output := [] }

/-- Sanity: the registry assembled by `add_state` calls in the main program is
exactly `stdStates`. -/
theorem add_state_main_registry :
    (((MicrowaveMachine.init.add_state .idle).add_state .cooking).add_state .pause).states
      = stdStates := rfl

/-!  Helper lemmas characterizing the transition machinery. -/

/-- Output lines produced by the `exit` hook of each state. -/
def exitOut : St → List Out
  | .cooking => [.stopHeating]
  | _ => []

/-- Output lines produced by the `enter` hook of each state. -/
def enterOut : St → List Out
  | .idle => []
  | .pause => [.pausedMsg]
  | .cooking => [.startHeating]

theorem logOut_eq_emit (o : Out) (m : MicrowaveMachine) : logOut o m = emit o m := rfl

theorem exit_eq (s : St) (m : MicrowaveMachine) :
    St.exit s m = { m with output := m.output ++ exitOut s } := by
  cases s <;> simp [St.exit, emit, exitOut]

theorem go_to_state_found (m : MicrowaveMachine) (s t : St) (state_name : String) (now : ℚ)
    (hs : m.state = some s) (hl : dictGet m.states state_name = some t) :
    m.go_to_state state_name now =
      ({ state := some t,
         states := m.states,
         event := m.event,
         cook_time := if t = .idle then 0 else m.cook_time,
         stop_time := if t = .cooking then some (now + m.cook_time) else m.stop_time,
         output := m.output ++ [.exiting s.name] ++ exitOut s
                     ++ [.entering t.name] ++ enterOut t }, none) := by
  cases m
  simp only at hs hl
  subst hs
  cases s <;> cases t <;>
    simp_all [MicrowaveMachine.go_to_state, St.exit, St.enter, logOut, emit,
      exitOut, enterOut, TESTING, List.append_assoc]

theorem go_to_state_missing (m : MicrowaveMachine) (state_name : String) (now : ℚ)
    (hl : dictGet m.states state_name = none) :
    m.go_to_state state_name now =
      ({ m with output := m.output
            ++ (match m.state with
                | some s => [Out.exiting s.name] ++ exitOut s
                | none => []) },
       some (.keyError state_name)) := by
  cases m with
  | mk st sts ev ct stp out =>
      simp only at hl
      cases st with
      | none =>
          simp [MicrowaveMachine.go_to_state, hl]
      | some s =>
          cases s <;>
            simp_all [MicrowaveMachine.go_to_state, St.exit, logOut, emit,
              exitOut, TESTING, List.append_assoc]

theorem go_to_state_found_none (m : MicrowaveMachine) (t : St) (state_name : String) (now : ℚ)
    (hs : m.state = none) (hl : dictGet m.states state_name = some t) :
    m.go_to_state state_name now =
      ({ state := some t,
         states := m.states,
         event := m.event,
         cook_time := if t = .idle then 0 else m.cook_time,
         stop_time := if t = .cooking then some (now + m.cook_time) else m.stop_time,
         output := m.output ++ [.entering t.name] ++ enterOut t }, none) := by
  cases m
  simp only at hs hl
  subst hs
  cases t <;>
    simp_all [MicrowaveMachine.go_to_state, St.enter, logOut, emit,
      enterOut, TESTING, List.append_assoc]

/-- Entering COOKING via `go_to_state` from any prior state, over the standard
registry: the new state is COOKING, the deadline is `now + cook_time`, the
registry and `cook_time` are untouched, and no error is raised. -/
theorem go_to_state_cooking_fields (m : MicrowaveMachine) (now : ℚ)
    (hr : m.states = stdStates) :
    (m.go_to_state "COOKING" now).1.state = some St.cooking ∧
    (m.go_to_state "COOKING" now).1.states = stdStates ∧
    (m.go_to_state "COOKING" now).1.stop_time = some (now + m.cook_time) ∧
    (m.go_to_state "COOKING" now).1.cook_time = m.cook_time ∧
    (m.go_to_state "COOKING" now).2 = none := by
  rcases hms : m.state with _ | s
  · rw [go_to_state_found_none m .cooking "COOKING" now hms (by rw [hr]; decide)]
    simp [hr]
  · rw [go_to_state_found m s .cooking "COOKING" now hms (by rw [hr]; decide)]
    simp [hr]

/-- Update of a COOKING machine whose deadline has been reached: transition to
IDLE, resetting `cook_time`, with no error and an unchanged registry. -/
theorem cooking_update_deadline (m : MicrowaveMachine) (now st : ℚ)
    (hs : m.state = some St.cooking) (hr : m.states = stdStates)
    (hst : m.stop_time = some st) (hle : st ≤ now) :
    (m.update now).2 = none ∧
    (m.update now).1.state = some St.idle ∧
    (m.update now).1.cook_time = 0 ∧
    (m.update now).1.states = stdStates := by
  have h := go_to_state_found m .cooking .idle "IDLE" now hs (by rw [hr]; decide)
  simp [MicrowaveMachine.update, hs, St.update, hst, hle, h, hr]

/-- C4: Entering the IDLE state (via any transition into it, from any prior
state and with any prior value) resets `cook_time_seconds` to 0. -/
theorem c4_enter_idle_resets_cook_time (m : MicrowaveMachine) (now : ℚ)
    (hr : m.states = stdStates) :
    (m.go_to_state "IDLE" now).1.cook_time = 0 ∧
    (m.go_to_state "IDLE" now).1.state = some St.idle := by
  rcases hms : m.state with _ | s
  · rw [go_to_state_found_none m .idle "IDLE" now hms (by rw [hr]; decide)]
    simp
  · rw [go_to_state_found m s .idle "IDLE" now hms (by rw [hr]; decide)]
    simp

theorem c4_witness :
    ((mkM (some St.cooking) 42 (some 7) "").go_to_state "IDLE" 3).1.cook_time = 0 ∧
    ((mkM (some St.cooking) 42 (some 7) "").go_to_state "IDLE" 3).1.state = some St.idle :=
  c4_enter_idle_resets_cook_time (mkM (some St.cooking) 42 (some 7) "") 3 rfl

/-- C5: From IDLE, the start symbol causes a transition to COOKING, and
COOKING's enter computes the deadline as the current monotonic time plus the
`cook_time_seconds` value held at the moment of entry. -/
theorem c5_idle_start_to_cooking_deadline (m : MicrowaveMachine) (now : ℚ)
    (hs : m.state = some St.idle) (hr : m.states = stdStates)
    (he : m.event = EVENT_START) :
    (m.update now).2 = none ∧
    (m.update now).1.state = some St.cooking ∧
    (m.update now).1.stop_time = some (now + m.cook_time) := by
  have h := go_to_state_found m .idle .cooking "COOKING" now hs (by rw [hr]; decide)
  simp [MicrowaveMachine.update, hs, St.update, he, h]

theorem c5_witness :
    ((mkM (some St.idle) 15 none "S").update 3).2 = none ∧
    ((mkM (some St.idle) 15 none "S").update 3).1.state = some St.cooking ∧
    ((mkM (some St.idle) 15 none "S").update 3).1.stop_time
      = some (3 + (mkM (some St.idle) 15 none "S").cook_time) :=
  c5_idle_start_to_cooking_deadline (mkM (some St.idle) 15 none "S") 3 rfl rfl rfl

/-- C6: In COOKING, once the current monotonic time is at or past the deadline,
the very next update call transitions to IDLE, for every pending event
(including the empty one) — so the deadline check takes priority over the
cancel ("Q") and pause ("P") event checks. -/
theorem c6_cooking_deadline_to_idle (m : MicrowaveMachine) (now st : ℚ)
    (hs : m.state = some St.cooking) (hr : m.states = stdStates)
    (hst : m.stop_time = some st) (hle : st ≤ now) :
    (m.update now).2 = none ∧
    (m.update now).1.state = some St.idle ∧
    (m.update now).1.cook_time = 0 := by
  have h := cooking_update_deadline m now st hs hr hst hle
  exact ⟨h.1, h.2.1, h.2.2.1⟩

theorem c6_witness :
    ((mkM (some St.cooking) 9 (some 5) "P").update 5).2 = none ∧
    ((mkM (some St.cooking) 9 (some 5) "P").update 5).1.state = some St.idle ∧
    ((mkM (some St.cooking) 9 (some 5) "P").update 5).1.cook_time = 0 :=
  c6_cooking_deadline_to_idle (mkM (some St.cooking) 9 (some 5) "P") 5 5 rfl rfl rfl le_rfl

/-- C9: In the PAUSE state, update transitions to COOKING on the start symbol,
transitions to IDLE on the quit/cancel symbol "Q", and otherwise returns the
machine entirely unchanged (no state change, no context change, no error). -/
theorem c9_pause_update_behavior (m : MicrowaveMachine) (now : ℚ)
    (hs : m.state = some St.pause) (hr : m.states = stdStates) :
    (m.event = EVENT_START →
      (m.update now).1.state = some St.cooking ∧ (m.update now).2 = none) ∧
    (m.event = "Q" →
      (m.update now).1.state = some St.idle ∧ (m.update now).2 = none) ∧
    (m.event ≠ EVENT_START → m.event ≠ "Q" → m.update now = (m, none)) := by
  refine ⟨?_, ?_, ?_⟩
  · intro he
    have h := go_to_state_found m .pause .cooking "COOKING" now hs (by rw [hr]; decide)
    simp [MicrowaveMachine.update, hs, St.update, he, h]
  · intro he
    have h := go_to_state_found m .pause .idle "IDLE" now hs (by rw [hr]; decide)
    simp [MicrowaveMachine.update, hs, St.update, he, EVENT_START, h]
  · intro h1 h2
    simp [MicrowaveMachine.update, hs, St.update, h1, h2]

theorem c9_witness :
    ("X" ≠ EVENT_START ∧ "X" ≠ "Q") ∧
    (mkM (some St.pause) 8 (some 2) "X").update 1 = (mkM (some St.pause) 8 (some 2) "X", none) :=
  ⟨⟨by decide, by decide⟩,
    (c9_pause_update_behavior (mkM (some St.pause) 8 (some 2) "X") 1 rfl rfl).2.2
      (by decide) (by decide)⟩

/-- C10: If COOKING is entered (from any prior state, over the standard
registry) while `cook_time_seconds` is 0, the deadline equals the entry time
itself, so the very first subsequent update call, at any time at or after entry
and with any pending event, transitions back to IDLE with no error. -/
theorem c10_zero_cook_time_immediate_idle (m : MicrowaveMachine) (t0 t1 : ℚ) (e : String)
    (hr : m.states = stdStates) (hct : m.cook_time = 0) (ht : t0 ≤ t1) :
    (m.go_to_state "COOKING" t0).1.stop_time = some t0 ∧
    (MicrowaveMachine.update { (m.go_to_state "COOKING" t0).1 with event := e } t1).1.state
      = some St.idle ∧
    (MicrowaveMachine.update { (m.go_to_state "COOKING" t0).1 with event := e } t1).2
      = none := by
  obtain ⟨h1, h2, h3, h4, h5⟩ := go_to_state_cooking_fields m t0 hr
  rw [hct, add_zero] at h3
  have hupd := cooking_update_deadline
    { (m.go_to_state "COOKING" t0).1 with event := e } t1 t0
    (by simpa using h1) (by simpa using h2) (by simpa using h3) ht
  exact ⟨h3, hupd.2.1, hupd.1⟩

theorem c10_witness :
    ((mkM (some St.idle) 0 none "S").go_to_state "COOKING" 2).1.stop_time = some 2 ∧
    (MicrowaveMachine.update
      { ((mkM (some St.idle) 0 none "S").go_to_state "COOKING" 2).1 with event := "" } 2).1.state
      = some St.idle ∧
    (MicrowaveMachine.update
      { ((mkM (some St.idle) 0 none "S").go_to_state "COOKING" 2).1 with event := "" } 2).2
      = none :=
  c10_zero_cook_time_immediate_idle (mkM (some St.idle) 0 none "S") 2 2 "" rfl rfl le_rfl

/-- Update of a COOKING machine before its deadline with the pause symbol
pending: `cook_time` becomes the remaining `stop_time - now` and the machine
transitions to Pause. -/
theorem cooking_update_pause (m : MicrowaveMachine) (now d : ℚ)
    (hs : m.state = some St.cooking) (hr : m.states = stdStates)
    (hd : m.stop_time = some d) (hlt : now < d) (hp : m.event = EVENT_PAUSE) :
    m.update now =
      ({ state := some St.pause, states := m.states, event := m.event,
         cook_time := d - now, stop_time := some d,
         output := m.output ++ [.exiting "COOKING", .stopHeating,
                                .entering "Pause", .pausedMsg] },
       none) := by
  have h := go_to_state_found ({ m with cook_time := d - now }) .cooking .pause "Pause" now
    (by simpa using hs) (by simp only [MicrowaveMachine.states]; rw [hr]; decide)
  rw [hs, hd, hp] at h
  simp [St.name, exitOut, enterOut, EVENT_PAUSE] at h
  simp [MicrowaveMachine.update, hs, St.update, hd, not_le.mpr hlt, hp, h, EVENT_PAUSE]

/-- Update of a PAUSE machine with the start symbol pending: transition to
COOKING with a fresh deadline `now + cook_time`. -/
theorem pause_update_start (m : MicrowaveMachine) (now : ℚ)
    (hs : m.state = some St.pause) (hr : m.states = stdStates)
    (he : m.event = EVENT_START) :
    m.update now =
      ({ state := some St.cooking, states := m.states, event := m.event,
         cook_time := m.cook_time, stop_time := some (now + m.cook_time),
         output := m.output ++ [.exiting "Pause", .entering "COOKING",
                                .startHeating] },
       none) := by
  have h := go_to_state_found m .pause .cooking "COOKING" now hs (by rw [hr]; decide)
  simp [MicrowaveMachine.update, hs, St.update, he, h, St.name, exitOut, enterOut]

/-- C2: Pause/resume round trip preserves remaining duration. Receiving the
pause symbol in COOKING at time `t1` (before the deadline `d`) recomputes
`cook_time_seconds = d - t1` and moves to Pause; a subsequent start symbol at
time `t2` re-enters COOKING with the new deadline `t2 + (d - t1)` — the stored
remainder, not the original total. -/
theorem c2_pause_resume_preserves_remaining (m : MicrowaveMachine) (d t1 t2 : ℚ)
    (hs : m.state = some St.cooking) (hr : m.states = stdStates)
    (hd : m.stop_time = some d) (hp : m.event = EVENT_PAUSE) (h1 : t1 < d) :
    (m.update t1).2 = none ∧
    (m.update t1).1.state = some St.pause ∧
    (m.update t1).1.cook_time = d - t1 ∧
    (MicrowaveMachine.update { (m.update t1).1 with event := EVENT_START } t2).1.state
      = some St.cooking ∧
    (MicrowaveMachine.update { (m.update t1).1 with event := EVENT_START } t2).1.stop_time
      = some (t2 + (d - t1)) := by
  have hstep1 := cooking_update_pause m t1 d hs hr hd h1 hp
  have hstep2 := pause_update_start
    { (m.update t1).1 with event := EVENT_START } t2
    (by rw [hstep1]) (by rw [hstep1]; exact hr) rfl
  rw [hstep2, hstep1]
  simp

theorem c2_witness :
    ((mkM (some St.cooking) 99 (some 101) "P").update 4).2 = none ∧
    ((mkM (some St.cooking) 99 (some 101) "P").update 4).1.state = some St.pause ∧
    ((mkM (some St.cooking) 99 (some 101) "P").update 4).1.cook_time = 101 - 4 ∧
    (MicrowaveMachine.update
      { ((mkM (some St.cooking) 99 (some 101) "P").update 4).1 with event := EVENT_START }
      50).1.state = some St.cooking ∧
    (MicrowaveMachine.update
      { ((mkM (some St.cooking) 99 (some 101) "P").update 4).1 with event := EVENT_START }
      50).1.stop_time = some (50 + (101 - 4)) :=
  c2_pause_resume_preserves_remaining (mkM (some St.cooking) 99 (some 101) "P")
    101 4 50 rfl rfl rfl rfl (by norm_num)

/-- C1 counterexample: over the standard registry, a machine currently in
COOKING asked to transition to the unregistered name "DEFROST" does fail with
the registry lookup error and keeps its current state, but observable side
effects DO occur before the failure: the "Exiting COOKING" trace line and the
exit hook's "Stop heating" print are emitted, because `go_to_state` runs the
old state's exit before the registry lookup. This refutes the claim's
"no observable transition side effects occur". -/
theorem c1_unknown_state_cex :
    ((mkM (some St.cooking) 5 (some 10) "").go_to_state "DEFROST" 0).2
        = some (PyErr.keyError "DEFROST") ∧
    ((mkM (some St.cooking) 5 (some 10) "").go_to_state "DEFROST" 0).1.state
        = some St.cooking ∧
    ((mkM (some St.cooking) 5 (some 10) "").go_to_state "DEFROST" 0).1.output
        = [Out.exiting "COOKING", Out.stopHeating] ∧
    ((mkM (some St.cooking) 5 (some 10) "").go_to_state "DEFROST" 0).1.output
        ≠ (mkM (some St.cooking) 5 (some 10) "").output := by
  refine ⟨rfl, rfl, rfl, by decide⟩

/-- C1 (amended): calling `go_to_state(name)` with a name absent from the state
registry fails with the lookup error (`KeyError`, realizing the spec's
`UnknownStateError`), aborts the transition, and leaves `current_state` (and
`cook_time`, `stop_time`) unchanged — but if a current state exists, its exit
hook has already run, so its trace line and exit output are emitted before the
failure. -/
theorem c1_unknown_state_amended (m : MicrowaveMachine) (state_name : String) (now : ℚ)
    (hl : dictGet m.states state_name = none) :
    (m.go_to_state state_name now).2 = some (.keyError state_name) ∧
    (m.go_to_state state_name now).1.state = m.state ∧
    (m.go_to_state state_name now).1.cook_time = m.cook_time ∧
    (m.go_to_state state_name now).1.stop_time = m.stop_time ∧
    (m.go_to_state state_name now).1.output
      = m.output ++ (match m.state with
          | some s => [Out.exiting s.name] ++ exitOut s
          | none => []) := by
  rw [go_to_state_missing m state_name now hl]
  simp

theorem c1_witness :
    ((mkM (some St.idle) 3 none "").go_to_state "DEFROST" 0).2
        = some (PyErr.keyError "DEFROST") ∧
    ((mkM (some St.idle) 3 none "").go_to_state "DEFROST" 0).1.state
        = (mkM (some St.idle) 3 none "").state ∧
    ((mkM (some St.idle) 3 none "").go_to_state "DEFROST" 0).1.cook_time
        = (mkM (some St.idle) 3 none "").cook_time ∧
    ((mkM (some St.idle) 3 none "").go_to_state "DEFROST" 0).1.stop_time
        = (mkM (some St.idle) 3 none "").stop_time ∧
    ((mkM (some St.idle) 3 none "").go_to_state "DEFROST" 0).1.output
      = (mkM (some St.idle) 3 none "").output
          ++ (match (mkM (some St.idle) 3 none "").state with
              | some s => [Out.exiting s.name] ++ exitOut s
              | none => []) :=
  c1_unknown_state_amended (mkM (some St.idle) 3 none "") "DEFROST" 0 (by decide)

/-- Event symbols recognized by each state's update: the start symbol and
digits in IDLE; the cancel and pause symbols (and, per the claim's phrasing,
digits) in COOKING; the start and cancel symbols (and digits) in PAUSE. -/
def recognizedB (s : St) (e : String) : Bool :=
  match s with
  | .idle => e == EVENT_START || (e != "" && strContains "0123456789" e)
  | .cooking => e == "Q" || e == EVENT_PAUSE || (e != "" && strContains "0123456789" e)
  | .pause => e == EVENT_START || e == "Q" || (e != "" && strContains "0123456789" e)

/-- C8 counterexample: in COOKING whose deadline has passed, the unrecognized
event "X" does NOT leave the machine unchanged: the update call transitions to
IDLE and resets `cook_time` from 5 to 0. The claim's universal statement is
therefore false as written — the deadline check fires on every update call
regardless of the pending event. -/
theorem c8_unrecognized_event_cex :
    recognizedB St.cooking "X" = false ∧
    ((mkM (some St.cooking) 5 (some 0) "X").update 1).1.state = some St.idle ∧
    ((mkM (some St.cooking) 5 (some 0) "X").update 1).1.cook_time = 0 ∧
    (mkM (some St.cooking) 5 (some 0) "X").cook_time = 5 := by
  refine ⟨by decide, rfl, rfl, rfl⟩

/-- C8 (amended): for every state and every pending event symbol that is
neither a digit nor a command symbol recognized by that state (including the
empty/"none" event), update produces no state transition and no change to
`cook_time_seconds` — provided that, in COOKING, the deadline has not yet been
reached (and the `stop_time` attribute is set); when the deadline has passed,
update transitions to IDLE regardless of the event. -/
theorem c8_unrecognized_event_amended (m : MicrowaveMachine) (s : St) (now : ℚ)
    (hs : m.state = some s) (he : recognizedB s m.event = false)
    (hck : s = St.cooking → ∃ st, m.stop_time = some st ∧ now < st) :
    (m.update now).1.state = m.state ∧
    (m.update now).1.cook_time = m.cook_time ∧
    (m.update now).2 = none := by
  cases s with
  | idle =>
      simp only [recognizedB, Bool.or_eq_false_iff] at he
      simp [MicrowaveMachine.update, hs, St.update, he.1, he.2]
  | cooking =>
      obtain ⟨st, hst, hlt⟩ := hck rfl
      simp only [recognizedB, Bool.or_eq_false_iff] at he
      simp [MicrowaveMachine.update, hs, St.update, hst, not_le.mpr hlt,
        he.1.1, he.1.2, emit]
  | pause =>
      simp only [recognizedB, Bool.or_eq_false_iff] at he
      simp [MicrowaveMachine.update, hs, St.update, he.1.1, he.1.2]

theorem c8_witness :
    recognizedB St.pause "X" = false ∧
    ((mkM (some St.pause) 8 (some 2) "X").update 1).1.state
        = (mkM (some St.pause) 8 (some 2) "X").state ∧
    ((mkM (some St.pause) 8 (some 2) "X").update 1).1.cook_time
        = (mkM (some St.pause) 8 (some 2) "X").cook_time ∧
    ((mkM (some St.pause) 8 (some 2) "X").update 1).2 = none :=
  ⟨by decide,
    c8_unrecognized_event_amended (mkM (some St.pause) 8 (some 2) "X") St.pause 1
      rfl (by decide) (fun h => St.noConfusion h)⟩

/-- Facts about a single decimal-digit event string: it is not the start
symbol, it passes the idle digit guard, and `int` parses it to its value. -/
theorem digit_event_facts (d : ℕ) (hd : d < 10) :
    (toString d == EVENT_START) = false ∧
    ((toString d != "") && strContains "0123456789" (toString d)) = true ∧
    pyInt (toString d) = (d : ℚ) := by
  interval_cases d <;> exact ⟨rfl, rfl, by decide⟩

/-- One idle update step on a digit event: decimal left-shift accumulation,
echoed to the output, with no transition and no error. -/
theorem idle_digit_update (m : MicrowaveMachine) (now : ℚ) (d : ℕ) (hd : d < 10)
    (hs : m.state = some St.idle) (he : m.event = toString d) :
    m.update now =
      (emit (.cookTimeEcho (m.cook_time * 10 + (d : ℚ)))
        { m with cook_time := m.cook_time * 10 + (d : ℚ) }, none) := by
  obtain ⟨h1, h2, h3⟩ := digit_event_facts d hd
  rw [← he] at h1 h2 h3
  simp [MicrowaveMachine.update, hs, St.update, h1, h2, h3]

/-- Feeding any list of digit events to an IDLE machine accumulates them in
decimal onto `cook_time`, stays in IDLE, and raises no error. -/
theorem runEvents_digits :
    ∀ (ds : List ℕ), (∀ d ∈ ds, d < 10) → ∀ (now : ℚ) (m : MicrowaveMachine),
      m.state = some St.idle →
      (runEvents m (ds.map toString) now).1.cook_time
          = ds.foldl (fun (a : ℚ) (d : ℕ) => a * 10 + (d : ℚ)) m.cook_time ∧
      (runEvents m (ds.map toString) now).1.state = some St.idle ∧
      (runEvents m (ds.map toString) now).2 = none := by
  intro ds
  induction ds with
  | nil => intro _ now m hs; exact ⟨rfl, hs, rfl⟩
  | cons d rest ih =>
      intro hds now m hs
      have hd : d < 10 := hds d (List.mem_cons_self d rest)
      have hstep := idle_digit_update { m with event := toString d } now d hd
        (by simpa using hs) rfl
      have hrest := ih (fun x hx => hds x (List.mem_cons_of_mem d hx)) now
        (emit (.cookTimeEcho (m.cook_time * 10 + (d : ℚ)))
          { m with event := toString d, cook_time := m.cook_time * 10 + (d : ℚ) })
        (by simpa [emit] using hs)
      simp only [List.map_cons, runEvents, hstep]
      simp only [emit] at hrest ⊢
      simpa using hrest

/-- Casting the natural-number decimal accumulation into the rationals. -/
theorem foldl_digits_cast (ds : List ℕ) (c : ℕ) :
    ((ds.foldl (fun a d => a * 10 + d) c : ℕ) : ℚ)
      = ds.foldl (fun (a : ℚ) (d : ℕ) => a * 10 + (d : ℚ)) (c : ℚ) := by
  induction ds generalizing c with
  | nil => rfl
  | cons d rest ih =>
      simp only [List.foldl_cons]
      rw [ih]
      congr 1
      push_cast
      ring

/-- C3: For all sequences of digit events fed to update while the machine is
in IDLE with `cook_time_seconds = 0` (as set on entry), `cook_time_seconds`
ends up equal to the decimal number formed by concatenating those digits in
order (each digit d maps the accumulator to `acc * 10 + d`), with no upper
bound enforced, while the machine stays in IDLE with no error. -/
theorem c3_idle_digit_accumulation (ds : List ℕ) (hds : ∀ d ∈ ds, d < 10)
    (m : MicrowaveMachine) (hs : m.state = some St.idle) (h0 : m.cook_time = 0)
    (now : ℚ) :
    (runEvents m (ds.map toString) now).1.cook_time
      = ((ds.foldl (fun a d => a * 10 + d) 0 : ℕ) : ℚ) ∧
    (runEvents m (ds.map toString) now).1.state = some St.idle ∧
    (runEvents m (ds.map toString) now).2 = none := by
  obtain ⟨h1, h2, h3⟩ := runEvents_digits ds hds now m hs
  refine ⟨?_, h2, h3⟩
  rw [h1, h0, foldl_digits_cast ds 0]
  norm_num

theorem c3_witness :
    (runEvents (mkM (some St.idle) 0 none "") (List.map toString [1, 2, 0]) 0).1.cook_time
      = ((List.foldl (fun a d => a * 10 + d) 0 [1, 2, 0] : ℕ) : ℚ) ∧
    (runEvents (mkM (some St.idle) 0 none "") (List.map toString [1, 2, 0]) 0).1.state
      = some St.idle ∧
    (runEvents (mkM (some St.idle) 0 none "") (List.map toString [1, 2, 0]) 0).2 = none :=
  c3_idle_digit_accumulation [1, 2, 0] (by decide) (mkM (some St.idle) 0 none "")
    rfl rfl 0

/-- Update of an IDLE machine with the start symbol pending: transition to
COOKING with deadline `now + cook_time`. -/
theorem idle_update_start (m : MicrowaveMachine) (now : ℚ)
    (hs : m.state = some St.idle) (hr : m.states = stdStates)
    (he : m.event = EVENT_START) :
    m.update now =
      ({ state := some St.cooking, states := m.states, event := m.event,
         cook_time := m.cook_time, stop_time := some (now + m.cook_time),
         output := m.output ++ [.exiting "IDLE", .entering "COOKING",
                                .startHeating] },
       none) := by
  have h := go_to_state_found m .idle .cooking "COOKING" now hs (by rw [hr]; decide)
  simp [MicrowaveMachine.update, hs, St.update, he, h, St.name, exitOut, enterOut]

/-- Update of a PAUSE machine with the quit symbol "Q" pending: transition to
IDLE, resetting `cook_time`. -/
theorem pause_update_quit (m : MicrowaveMachine) (now : ℚ)
    (hs : m.state = some St.pause) (hr : m.states = stdStates)
    (he : m.event = "Q") :
    m.update now =
      ({ state := some St.idle, states := m.states, event := m.event,
         cook_time := 0, stop_time := m.stop_time,
         output := m.output ++ [.exiting "Pause", .entering "IDLE"] },
       none) := by
  have h := go_to_state_found m .pause .idle "IDLE" now hs (by rw [hr]; decide)
  simp [MicrowaveMachine.update, hs, St.update, he, EVENT_START, h,
    St.name, exitOut, enterOut]

/-- Update of a COOKING machine whose deadline has been reached (full record):
transition to IDLE. -/
theorem cooking_update_timeout (m : MicrowaveMachine) (now st : ℚ)
    (hs : m.state = some St.cooking) (hr : m.states = stdStates)
    (hst : m.stop_time = some st) (hle : st ≤ now) :
    m.update now =
      ({ state := some St.idle, states := m.states, event := m.event,
         cook_time := 0, stop_time := m.stop_time,
         output := m.output ++ [.exiting "COOKING", .stopHeating,
                                .entering "IDLE"] },
       none) := by
  have h := go_to_state_found m .cooking .idle "IDLE" now hs (by rw [hr]; decide)
  simp [MicrowaveMachine.update, hs, St.update, hst, hle, h,
    St.name, exitOut, enterOut]

/-- Update of a COOKING machine before its deadline with the cancel symbol "Q"
pending: print "Cancel" and transition to IDLE. -/
theorem cooking_update_cancel (m : MicrowaveMachine) (now st : ℚ)
    (hs : m.state = some St.cooking) (hr : m.states = stdStates)
    (hst : m.stop_time = some st) (hgt : now < st) (he : m.event = "Q") :
    m.update now =
      ({ state := some St.idle, states := m.states, event := m.event,
         cook_time := 0, stop_time := m.stop_time,
         output := m.output ++ [.cancelMsg, .exiting "COOKING", .stopHeating,
                                .entering "IDLE"] },
       none) := by
  have h := go_to_state_found (emit .cancelMsg m) .cooking .idle "IDLE" now
    (by simpa [emit] using hs)
    (by simp only [emit, MicrowaveMachine.states]; rw [hr]; decide)
  simp [emit, St.name, exitOut, enterOut, hs, hst, he] at h
  simp [MicrowaveMachine.update, hs, St.update, hst, not_le.mpr hgt, he, emit, h,
    List.append_assoc]

/-- Output entries that are hook-trace lines: the "Exiting ..." and
"Entering ..." log lines emitted by `go_to_state` around the exit and enter
hook invocations — the only code site that produces them. -/
def isHookLog : Out → Bool
  | .exiting _ => true
  | .entering _ => true
  | _ => false

/-- C7: Over the standard registry, a single update call from any state either
performs no transition (its output delta holds no hook-trace line and the
current state is unchanged) or performs exactly one transition, whose output
delta holds exactly the two hook-trace lines "Exiting old" then "Entering new",
in that order, each once — exit always before enter, each hook run at most once.
Hook-trace lines arise only inside `go_to_state`, which surrounds the only
invocations of exit/enter; states never run the hooks on themselves or on
siblings. -/
theorem c7_transition_hook_order (m : MicrowaveMachine) (s : St) (now : ℚ)
    (hs : m.state = some s) (hr : m.states = stdStates) :
    ∃ delta, (m.update now).1.output = m.output ++ delta ∧
      ((delta.filter isHookLog = [] ∧ (m.update now).1.state = m.state) ∨
       (∃ t : St, delta.filter isHookLog
            = [Out.exiting s.name, Out.entering t.name] ∧
          (m.update now).1.state = some t)) := by
  cases s with
  | idle =>
      by_cases hS : m.event = EVENT_START
      · rw [idle_update_start m now hs hr hS]
        exact ⟨[.exiting "IDLE", .entering "COOKING", .startHeating], rfl,
          Or.inr ⟨.cooking, rfl, rfl⟩⟩
      · by_cases hD : (m.event != "" && strContains "0123456789" m.event) = true
        · have hu : m.update now =
              (emit (.cookTimeEcho (m.cook_time * 10 + pyInt m.event))
                { m with cook_time := m.cook_time * 10 + pyInt m.event }, none) := by
            simp [MicrowaveMachine.update, hs, St.update, hS, hD]
          rw [hu]
          exact ⟨[.cookTimeEcho (m.cook_time * 10 + pyInt m.event)], rfl,
            Or.inl ⟨rfl, by simp [emit]⟩⟩
        · have hu : m.update now = (m, none) := by
            simp [MicrowaveMachine.update, hs, St.update, hS, hD]
          rw [hu]
          exact ⟨[], by simp, Or.inl ⟨rfl, rfl⟩⟩
  | pause =>
      by_cases hS : m.event = EVENT_START
      · rw [pause_update_start m now hs hr hS]
        exact ⟨[.exiting "Pause", .entering "COOKING", .startHeating], rfl,
          Or.inr ⟨.cooking, rfl, rfl⟩⟩
      · by_cases hQ : m.event = "Q"
        · rw [pause_update_quit m now hs hr hQ]
          exact ⟨[.exiting "Pause", .entering "IDLE"], rfl,
            Or.inr ⟨.idle, rfl, rfl⟩⟩
        · have hu : m.update now = (m, none) := by
            simp [MicrowaveMachine.update, hs, St.update, hS, hQ]
          rw [hu]
          exact ⟨[], by simp, Or.inl ⟨rfl, rfl⟩⟩
  | cooking =>
      rcases hst : m.stop_time with _ | st
      · have hu : m.update now = (m, some (.attributeError "stop_time")) := by
          simp [MicrowaveMachine.update, hs, St.update, hst]
        rw [hu]
        exact ⟨[], by simp, Or.inl ⟨rfl, rfl⟩⟩
      · by_cases hle : st ≤ now
        · rw [cooking_update_timeout m now st hs hr hst hle]
          exact ⟨[.exiting "COOKING", .stopHeating, .entering "IDLE"], rfl,
            Or.inr ⟨.idle, rfl, rfl⟩⟩
        · by_cases hQ : m.event = "Q"
          · rw [cooking_update_cancel m now st hs hr hst (not_le.mp hle) hQ]
            exact ⟨[.cancelMsg, .exiting "COOKING", .stopHeating, .entering "IDLE"],
              rfl, Or.inr ⟨.idle, rfl, rfl⟩⟩
          · by_cases hP : m.event = EVENT_PAUSE
            · rw [cooking_update_pause m now st hs hr hst (not_le.mp hle) hP]
              exact ⟨[.exiting "COOKING", .stopHeating, .entering "Pause", .pausedMsg],
                rfl, Or.inr ⟨.pause, rfl, rfl⟩⟩
            · have hu : m.update now = (emit .dot m, none) := by
                simp [MicrowaveMachine.update, hs, St.update, hst, hle, hQ, hP]
              rw [hu]
              exact ⟨[.dot], rfl, Or.inl ⟨rfl, rfl⟩⟩

theorem c7_witness :
    ∃ delta, ((mkM (some St.idle) 15 none "S").update 3).1.output
        = (mkM (some St.idle) 15 none "S").output ++ delta ∧
      ((delta.filter isHookLog = [] ∧
          ((mkM (some St.idle) 15 none "S").update 3).1.state
            = (mkM (some St.idle) 15 none "S").state) ∨
       (∃ t : St, delta.filter isHookLog
            = [Out.exiting (St.name St.idle), Out.entering (St.name t)] ∧
          ((mkM (some St.idle) 15 none "S").update 3).1.state = some t)) :=
  c7_transition_hook_order (mkM (some St.idle) 15 none "S") St.idle 3 rfl rfl
